import Mathlib

/-!
Verification of the femtosync delta-sync engine.

This file gives a shallow embedding of the core of the two Python programs
`femtosync-sender.py` and `femtosync-receiver.py`:

* the rolling/strong block-checksum pipeline,
* the patch generator (rolling match) and the patch applier,
* the wire decoding of patch chunks,
* the tree-diff planner and the driver loops of the sender,
* the path-safety check and the POST control surface of the receiver.

Bytes are modelled as `Nat`, byte strings as `List Nat`, Python unbounded
integers as `Int`.  SHA-256 is modelled as an abstract injective function
`h : List Nat → α` wherever a claim asks for it.  For each Python function
the Lean definition of the same name transcribes its code; comments note
every modelling decision.
-/

/-- Block / rolling-window size, `ROLLING_WINDOW_SIZE = 0x100000` (1 MiB), defined
identically in the sender (line 24) and the receiver (line 26). -/
def ROLLING_WINDOW_SIZE : Nat := 0x100000

/-- Maximum request body size, `MAX_CHUNK_SIZE = 0x1000000` (16 MiB), sender line 25. -/
def MAX_CHUNK_SIZE : Nat := 0x1000000

/-- Weak checksum accumulator `a`, the Python expression `sum(buffer)` over the
bytes of a block or window (receiver line 112, sender lines 79 and 104). -/
def rollA (bs : List Nat) : Int :=
  (bs.map fun d => (d : Int)).sum

/-- Weak checksum accumulator `b`, the Python expression
`sum((len(buffer) - i) * d for i, d in enumerate(buffer))` (receiver line 112,
sender lines 79 and 104).  The element at index `i` has weight `len - i`, which is
the length of the suffix starting at `i`; the recursion computes exactly that.
The bridge lemma `rollB_eq_enum_sum` below certifies the equivalence with the
literal enumerate form. -/
def rollB : List Nat → Int
  | [] => 0
  | d :: ds => (d : Int) * ((ds.length : Int) + 1) + rollB ds

/-- The combined rolling checksum `(b << 16) | a` on Python unbounded integers
(receiver line 113, sender lines 80, 105, 123).  A Python left shift of an
unbounded integer is exact multiplication by `2 ^ 16`, including for negative `b`,
and `|` is two-sided-complement bitwise or, which is `Int.lor`. -/
def combineChecksum (b a : Int) : Int :=
  Int.lor (b * 65536) a

theorem rollB_enumFrom_sum (bs : List Nat) :
    ∀ k : Nat, ((List.enumFrom k bs).map fun p => ((k + bs.length - p.1 : Nat) : Int) * (p.2 : Int)).sum
      = rollB bs := by
  induction bs with
  | nil => intro k; simp [rollB]
  | cons d ds ih =>
    intro k
    rw [List.enumFrom_cons]
    simp only [List.map_cons, List.sum_cons, List.length_cons, rollB]
    have h1 : k + (ds.length + 1) - k = ds.length + 1 := by omega
    rw [h1]
    have h2 : ((List.enumFrom (k + 1) ds).map fun p => ((k + (ds.length + 1) - p.1 : Nat) : Int) * (p.2 : Int))
        = (List.enumFrom (k + 1) ds).map fun p => (((k + 1) + ds.length - p.1 : Nat) : Int) * (p.2 : Int) := by
      apply List.map_congr_left
      intro p _
      have : k + (ds.length + 1) = (k + 1) + ds.length := by omega
      rw [this]
    rw [h2, ih (k + 1)]
    push_cast
    ring

/-- Fidelity bridge: `rollB` equals the literal transcription of the Python
generator expression `sum((len(buffer) - i) * d for i, d in enumerate(buffer))`. -/
theorem rollB_eq_enum_sum (bs : List Nat) :
    rollB bs = ((bs.enum.map fun p => ((bs.length - p.1 : Nat) : Int) * (p.2 : Int)).sum) := by
  have := rollB_enumFrom_sum bs 0
  simp only [Nat.zero_add] at this
  rw [← this]
  rfl

theorem rollA_cons (d : Nat) (ds : List Nat) : rollA (d :: ds) = (d : Int) + rollA ds := by
  simp [rollA]

theorem rollA_append_singleton (l : List Nat) (x : Nat) :
    rollA (l ++ [x]) = rollA l + (x : Int) := by
  simp [rollA]

theorem rollB_cons (d : Nat) (ds : List Nat) :
    rollB (d :: ds) = (d : Int) * ((ds.length : Int) + 1) + rollB ds := rfl

theorem rollB_append_singleton (l : List Nat) (x : Nat) :
    rollB (l ++ [x]) = rollB l + rollA l + (x : Int) := by
  induction l with
  | nil => simp [rollB, rollA]
  | cons d ds ih =>
    simp only [List.cons_append, rollB_cons, rollA_cons, List.length_append,
      List.length_cons, List.length_nil, ih]
    push_cast
    ring

/-- The receiver splits a file into consecutive blocks of up to
`ROLLING_WINDOW_SIZE` bytes: the `while` loop of `do_GET /block_checksums`
(receiver lines 108-114) reads up to one window per iteration until the read
comes back empty. -/
def fileBlocks (bs : List Nat) : List (List Nat) :=
  if hbs : bs = [] then []
  else bs.take ROLLING_WINDOW_SIZE :: fileBlocks (bs.drop ROLLING_WINDOW_SIZE)
termination_by bs.length
decreasing_by
  have := List.length_pos.mpr hbs
  simp only [List.length_drop]
  have hB : 0 < ROLLING_WINDOW_SIZE := by decide
  omega

/-- The block-checksum table served by `GET /block_checksums/<rel>` for an existing
file with content `bs` (receiver lines 105-115): the ordered list of combined
rolling checksums and the ordered list of strong checksums, one per block.  The
strong checksum SHA-256 is the abstract function `h`. -/
def blockChecksums {α : Type} (h : List Nat → α) (bs : List Nat) : List Int × List α :=
  ((fileBlocks bs).map fun blk => combineChecksum (rollB blk) (rollA blk),
   (fileBlocks bs).map h)

/-- A patch instruction: the generator yields either a destination block index
(`int`) or a literal byte buffer (`bytes`). -/
inductive PatchItem where
  | copy (index : Nat)
  | literal (data : List Nat)
deriving DecidableEq

/-- The match search of `generate_file_patch` (sender lines 86-91): the
`defaultdict` maps a rolling checksum to the increasing list of block indices
producing it, and `next((i for i in candidates if strong[i] == h), -1)` takes the
first candidate whose strong checksum also matches.  That combination equals:
the first index `i` with `rolls[i] = checksum` and `strongs[i] = windowHash`,
or `none` when there is no such index. -/
def findMatchedBlockIndex {α : Type} [DecidableEq α] (rolls : List Int) (strongs : List α)
    (checksum : Int) (windowHash : α) : Option Nat :=
  (List.range rolls.length).find? fun i =>
    decide (rolls.get? i = some checksum ∧ strongs.get? i = some windowHash)

/-- The main loop of `generate_file_patch` (sender lines 82-126).  State: the
rolling window, the unread remainder of the source file, the pending literal
buffer, and the accumulators `a`, `b`.  The Python flag
`reached_end_of_source_file` only avoids a redundant read once a read has come
back empty; behaviourally it is equivalent to testing whether the remainder is
empty, which is how the embedding branches.  The Python variable
`latest_matched_block_index` is written but never read and is dropped. -/
def generatePatchLoop {α : Type} [DecidableEq α] (h : List Nat → α)
    (rolls : List Int) (strongs : List α) :
    List Nat → List Nat → List Nat → Int → Int → List PatchItem
  | [], _, litbuf, _, _ =>
      -- loop exit: `if literal_data_buffer: yield bytes(literal_data_buffer)`
      if litbuf = [] then [] else [.literal litbuf]
  | w0 :: ws, rest, litbuf, a, b =>
    match findMatchedBlockIndex rolls strongs (combineChecksum b a) (h (w0 :: ws)) with
    | some k =>
      -- match found: flush the literal buffer, yield the block index, then
      -- refill the window from the source and recompute `a`, `b` from scratch
      (if litbuf = [] then [] else [.literal litbuf]) ++ .copy k ::
        generatePatchLoop h rolls strongs (rest.take ROLLING_WINDOW_SIZE)
          (rest.drop ROLLING_WINDOW_SIZE) []
          (rollA (rest.take ROLLING_WINDOW_SIZE)) (rollB (rest.take ROLLING_WINDOW_SIZE))
    | none =>
      match rest with
      | [] =>
        -- source exhausted: `new_byte = 0`, the window shrinks;
        -- `a -= old_byte - new_byte`, then `b -= old_byte * ROLLING_WINDOW_SIZE - a`
        generatePatchLoop h rolls strongs ws [] (litbuf ++ [w0])
          (a - (w0 : Int))
          (b - (w0 : Int) * (ROLLING_WINDOW_SIZE : Int) + (a - (w0 : Int)))
      | r :: rs =>
        -- one more byte read from the source and appended to the window
        generatePatchLoop h rolls strongs (ws ++ [r]) rs (litbuf ++ [w0])
          (a - (w0 : Int) + (r : Int))
          (b - (w0 : Int) * (ROLLING_WINDOW_SIZE : Int) + (a - (w0 : Int) + (r : Int)))
termination_by window rest _ _ _ => window.length + rest.length
decreasing_by
  · simp only [List.length_take, List.length_drop, List.length_cons]
    omega
  · simp only [List.length_cons, List.length_nil]
    omega
  · simp only [List.length_cons, List.length_append, List.length_nil]
    omega

/-- `generate_file_patch(source_file, destination_block_checksums)` (sender
lines 71-126): unpack the table, initialise the window with the first up-to-one
window of the source and `a`, `b` from scratch, then run the main loop. -/
def generateFilePatch {α : Type} [DecidableEq α] (h : List Nat → α) (source : List Nat)
    (table : List Int × List α) : List PatchItem :=
  generatePatchLoop h table.1 table.2 (source.take ROLLING_WINDOW_SIZE)
    (source.drop ROLLING_WINDOW_SIZE) []
    (rollA (source.take ROLLING_WINDOW_SIZE)) (rollB (source.take ROLLING_WINDOW_SIZE))

/-- Application of one patch instruction to the destination file `old`
(receiver lines 148-152): a block index `k` seeks to `k * ROLLING_WINDOW_SIZE`
and appends up to one window of `old`; a literal appends its bytes. -/
def applyPatchItem (old : List Nat) : PatchItem → List Nat
  | .copy k => (old.drop (k * ROLLING_WINDOW_SIZE)).take ROLLING_WINDOW_SIZE
  | .literal d => d

/-- Application of an instruction stream: the receiver appends the result of each
instruction to the side file in order. -/
def applyPatchItems (old : List Nat) : List PatchItem → List Nat
  | [] => []
  | it :: its => applyPatchItem old it ++ applyPatchItems old its

theorem applyPatchItems_append (old : List Nat) (l₁ l₂ : List PatchItem) :
    applyPatchItems old (l₁ ++ l₂) = applyPatchItems old l₁ ++ applyPatchItems old l₂ := by
  induction l₁ with
  | nil => simp [applyPatchItems]
  | cons it its ih => simp [applyPatchItems, ih]

theorem ROLLING_WINDOW_SIZE_pos : 0 < ROLLING_WINDOW_SIZE := by decide

/-- Block `k` of a file covers the bytes from offset `k * ROLLING_WINDOW_SIZE`,
up to one window long: exactly what the applier reads back for a copy item. -/
theorem fileBlocks_get?_eq (k : Nat) (bs blk : List Nat)
    (hget : (fileBlocks bs).get? k = some blk) :
    blk = (bs.drop (k * ROLLING_WINDOW_SIZE)).take ROLLING_WINDOW_SIZE := by
  induction k generalizing bs with
  | zero =>
    rw [fileBlocks] at hget
    by_cases hbs : bs = []
    · simp [hbs] at hget
    · simp only [hbs, dite_false, List.get?] at hget
      cases hget
      simp
  | succ k ih =>
    rw [fileBlocks] at hget
    by_cases hbs : bs = []
    · simp [hbs] at hget
    · simp only [hbs, dite_false, List.get?] at hget
      have := ih _ hget
      rw [this, List.drop_drop]
      congr 2
      ring

/-- Extracting the strong-checksum fact from a successful match search. -/
theorem findMatchedBlockIndex_strong {α : Type} [DecidableEq α] {rolls : List Int}
    {strongs : List α} {c : Int} {x : α} {k : Nat}
    (hfind : findMatchedBlockIndex rolls strongs c x = some k) :
    strongs.get? k = some x := by
  have hp := List.find?_some hfind
  simp only [decide_eq_true_eq] at hp
  exact hp.2

/-- When the strong table is the image of the destination blocks under an
injective hash, a successful match means the copy item reproduces exactly the
current window bytes. -/
theorem matched_block_bytes {α : Type} [DecidableEq α] {h : List Nat → α}
    (hinj : Function.Injective h) {old : List Nat} {rolls : List Int} {c : Int}
    {w : List Nat} {k : Nat}
    (hfind : findMatchedBlockIndex rolls ((fileBlocks old).map h) c (h w) = some k) :
    (old.drop (k * ROLLING_WINDOW_SIZE)).take ROLLING_WINDOW_SIZE = w := by
  have hs := findMatchedBlockIndex_strong hfind
  rw [List.get?_map] at hs
  cases hblk : (fileBlocks old).get? k with
  | none => rw [hblk] at hs; simp at hs
  | some blk =>
    rw [hblk] at hs
    simp only [Option.map_some', Option.some.injEq] at hs
    have hbw : blk = w := hinj hs
    rw [← hbw, ← fileBlocks_get?_eq k old blk hblk]

/-- One-step unfolding: empty window, final flush. -/
theorem generatePatchLoop_nil {α : Type} [DecidableEq α] (h : List Nat → α)
    (rolls : List Int) (strongs : List α) (rest litbuf : List Nat) (a b : Int) :
    generatePatchLoop h rolls strongs [] rest litbuf a b
      = if litbuf = [] then [] else [.literal litbuf] :=
  generatePatchLoop.eq_1 h rolls strongs rest litbuf a b

/-- One-step unfolding: a block match flushes the literal buffer, emits the copy
item and restarts on a fresh window. -/
theorem generatePatchLoop_matched {α : Type} [DecidableEq α] {h : List Nat → α}
    {rolls : List Int} {strongs : List α} {w0 : Nat} {ws : List Nat} {a b : Int} {k : Nat}
    (rest litbuf : List Nat)
    (hfind : findMatchedBlockIndex rolls strongs (combineChecksum b a) (h (w0 :: ws)) = some k) :
    generatePatchLoop h rolls strongs (w0 :: ws) rest litbuf a b
      = (if litbuf = [] then [] else [.literal litbuf]) ++ .copy k ::
          generatePatchLoop h rolls strongs (rest.take ROLLING_WINDOW_SIZE)
            (rest.drop ROLLING_WINDOW_SIZE) []
            (rollA (rest.take ROLLING_WINDOW_SIZE)) (rollB (rest.take ROLLING_WINDOW_SIZE)) := by
  cases rest with
  | nil => rw [generatePatchLoop.eq_2, hfind]
  | cons r rs => rw [generatePatchLoop.eq_3, hfind]

/-- One-step unfolding: no match, source exhausted, the window shrinks. -/
theorem generatePatchLoop_noMatch_nil {α : Type} [DecidableEq α] {h : List Nat → α}
    {rolls : List Int} {strongs : List α} {w0 : Nat} {ws : List Nat} {a b : Int}
    (litbuf : List Nat)
    (hfind : findMatchedBlockIndex rolls strongs (combineChecksum b a) (h (w0 :: ws)) = none) :
    generatePatchLoop h rolls strongs (w0 :: ws) [] litbuf a b
      = generatePatchLoop h rolls strongs ws [] (litbuf ++ [w0]) (a - (w0 : Int))
          (b - (w0 : Int) * (ROLLING_WINDOW_SIZE : Int) + (a - (w0 : Int))) := by
  rw [generatePatchLoop.eq_2, hfind]

/-- One-step unfolding: no match, one byte is read and the window rolls. -/
theorem generatePatchLoop_noMatch_cons {α : Type} [DecidableEq α] {h : List Nat → α}
    {rolls : List Int} {strongs : List α} {w0 : Nat} {ws : List Nat} {a b : Int}
    (r : Nat) (rs litbuf : List Nat)
    (hfind : findMatchedBlockIndex rolls strongs (combineChecksum b a) (h (w0 :: ws)) = none) :
    generatePatchLoop h rolls strongs (w0 :: ws) (r :: rs) litbuf a b
      = generatePatchLoop h rolls strongs (ws ++ [r]) rs (litbuf ++ [w0])
          (a - (w0 : Int) + (r : Int))
          (b - (w0 : Int) * (ROLLING_WINDOW_SIZE : Int) + (a - (w0 : Int) + (r : Int))) := by
  rw [generatePatchLoop.eq_3, hfind]

/-- Main invariant of the patch generator: whatever the rolling-checksum side
of the table and the accumulators are, applying the emitted stream to the
destination file reproduces the pending literal buffer, the current window, and
the unread remainder of the source, in that order.  The hypothesis reflects the
loop invariant that an empty window implies an exhausted source. -/
theorem generatePatchLoop_applyItems {α : Type} [DecidableEq α] (h : List Nat → α)
    (hinj : Function.Injective h) (old : List Nat) (rolls : List Int) :
    ∀ (window rest litbuf : List Nat) (a b : Int),
      (window = [] → rest = []) →
      applyPatchItems old
          (generatePatchLoop h rolls ((fileBlocks old).map h) window rest litbuf a b)
        = litbuf ++ window ++ rest := by
  intro window rest litbuf a b hw
  induction window, rest, litbuf, a, b using
    generatePatchLoop.induct h rolls ((fileBlocks old).map h) with
  | case1 x x1 x2 =>
    rw [hw rfl, generatePatchLoop_nil]
    simp [applyPatchItems]
  | case2 x litbuf x1 x2 hl =>
    rw [hw rfl, generatePatchLoop_nil]
    simp [hl, applyPatchItems, applyPatchItem]
  | case3 w0 ws rest litbuf a b k hfind ih =>
    rw [generatePatchLoop_matched rest litbuf hfind]
    have hw' : rest.take ROLLING_WINDOW_SIZE = [] → rest.drop ROLLING_WINDOW_SIZE = [] := by
      intro ht
      rcases List.take_eq_nil_iff.mp ht with hr | hr
      · exact absurd hr (by decide)
      · simp [hr]
    rw [applyPatchItems_append]
    simp only [applyPatchItems]
    rw [ih hw']
    have hcopy := matched_block_bytes hinj hfind
    by_cases hl : litbuf = [] <;>
      simp [hl, applyPatchItems, applyPatchItem, hcopy, List.take_append_drop]
  | case4 w0 ws litbuf a b hfind ih =>
    rw [generatePatchLoop_noMatch_nil litbuf hfind]
    rw [ih (fun _ => rfl)]
    simp
  | case5 w0 ws litbuf a b hfind r rs ih =>
    rw [generatePatchLoop_noMatch_cons r rs litbuf hfind]
    rw [ih (by intro hx; exact absurd hx (by simp))]
    simp

/-- Claim C1 (patch round-trip): for any two byte sequences `old` and `new`,
with SHA-256 modelled as an injective function `h`, applying the instruction
stream generated from `new` against the block-checksum table of `old` to the
file `old` (a copy of block `k` appends up to one window of `old` starting at
offset `k * ROLLING_WINDOW_SIZE`, a literal appends its bytes) yields exactly
`new`. -/
theorem claim_C1_patch_roundtrip {α : Type} [DecidableEq α] (h : List Nat → α)
    (hinj : Function.Injective h) (old new : List Nat) :
    applyPatchItems old (generateFilePatch h new (blockChecksums h old)) = new := by
  unfold generateFilePatch blockChecksums
  rw [generatePatchLoop_applyItems h hinj old _ _ _ _ _ _ ?hw]
  · simp [List.take_append_drop]
  case hw =>
    intro ht
    rcases List.take_eq_nil_iff.mp ht with hr | hr
    · exact absurd hr (by decide)
    · simp [hr]

/-- Witness for claim C1 at concrete inputs, with the identity as the injective
hash model. -/
theorem claim_C1_witness :
    applyPatchItems [1, 2]
        (generateFilePatch (fun bs : List Nat => bs) [3]
          (blockChecksums (fun bs : List Nat => bs) [1, 2])) = [3] :=
  claim_C1_patch_roundtrip (fun bs : List Nat => bs) (fun _ _ hx => hx) [1, 2] [3]

theorem rollA_replicate (n x : Nat) :
    rollA (List.replicate n x) = (n : Int) * (x : Int) := by
  induction n with
  | zero => simp [rollA]
  | succ n ih =>
    rw [List.replicate_succ, rollA_cons, ih]
    push_cast
    ring

theorem two_mul_rollB_replicate (n x : Nat) :
    2 * rollB (List.replicate n x) = (x : Int) * (n : Int) * ((n : Int) + 1) := by
  induction n with
  | zero => simp [rollB]
  | succ n ih =>
    rw [List.replicate_succ, rollB_cons, List.length_replicate]
    push_cast
    push_cast at ih
    linarith

/-- Claim C10: rolling the window one byte forward with the O(1) update of the
sender (lines 121-123), over unbounded integers and with the full window size
used in the `b` update, gives exactly the from-scratch accumulators of the
shifted window whenever the window holds exactly `ROLLING_WINDOW_SIZE` bytes,
and hence the same combined rolling checksum as the receiver computes from
scratch for a full block. -/
theorem claim_C10_rolling_update (d x : Nat) (ws : List Nat)
    (hlen : (d :: ws).length = ROLLING_WINDOW_SIZE) :
    rollA (d :: ws) - (d : Int) + (x : Int) = rollA (ws ++ [x])
    ∧ rollB (d :: ws) - (d : Int) * (ROLLING_WINDOW_SIZE : Int)
        + (rollA (d :: ws) - (d : Int) + (x : Int)) = rollB (ws ++ [x])
    ∧ combineChecksum
        (rollB (d :: ws) - (d : Int) * (ROLLING_WINDOW_SIZE : Int)
          + (rollA (d :: ws) - (d : Int) + (x : Int)))
        (rollA (d :: ws) - (d : Int) + (x : Int))
      = combineChecksum (rollB (ws ++ [x])) (rollA (ws ++ [x])) := by
  have hA : rollA (d :: ws) - (d : Int) + (x : Int) = rollA (ws ++ [x]) := by
    rw [rollA_cons, rollA_append_singleton]
    ring
  have hlen' : ((ws.length : Int) + 1) = (ROLLING_WINDOW_SIZE : Int) := by
    have : ws.length + 1 = ROLLING_WINDOW_SIZE := by simpa using hlen
    exact_mod_cast this
  have hB : rollB (d :: ws) - (d : Int) * (ROLLING_WINDOW_SIZE : Int)
      + (rollA (d :: ws) - (d : Int) + (x : Int)) = rollB (ws ++ [x]) := by
    rw [rollB_append_singleton, rollB_cons, rollA_cons, hlen']
    ring
  exact ⟨hA, hB, by rw [hB, hA]⟩

/-- Witness for claim C10 at a concrete full window. -/
theorem claim_C10_witness :
    rollA (0 :: List.replicate 1048575 0) - (0 : Int) + (5 : Int)
        = rollA (List.replicate 1048575 0 ++ [5])
    ∧ rollB (0 :: List.replicate 1048575 0) - (0 : Int) * (ROLLING_WINDOW_SIZE : Int)
        + (rollA (0 :: List.replicate 1048575 0) - (0 : Int) + (5 : Int))
        = rollB (List.replicate 1048575 0 ++ [5])
    ∧ combineChecksum
        (rollB (0 :: List.replicate 1048575 0) - (0 : Int) * (ROLLING_WINDOW_SIZE : Int)
          + (rollA (0 :: List.replicate 1048575 0) - (0 : Int) + (5 : Int)))
        (rollA (0 :: List.replicate 1048575 0) - (0 : Int) + (5 : Int))
      = combineChecksum (rollB (List.replicate 1048575 0 ++ [5]))
          (rollA (List.replicate 1048575 0 ++ [5])) :=
  claim_C10_rolling_update 0 5 (List.replicate 1048575 0)
    (by rw [List.length_cons, List.length_replicate]; rfl)

theorem fileBlocks_nil : fileBlocks [] = [] := by
  rw [fileBlocks]
  simp

/-- A nonempty file no longer than one window is a single block. -/
theorem fileBlocks_small (bs : List Nat) (hne : bs ≠ [])
    (hlen : bs.length ≤ ROLLING_WINDOW_SIZE) : fileBlocks bs = [bs] := by
  rw [fileBlocks]
  simp [hne, List.take_of_length_le hlen, List.drop_eq_nil_of_le hlen, fileBlocks_nil]

/-- Claim C5 (amended): the rolling checksum each side stores and compares is
`(b << 16) | a` with `a = sum(d)` and `b = sum((L - i) * d[i])` taken over
unbounded integers, with no 16-bit masking; both sides use this identical
formula, so equal blocks give equal checksums. -/
theorem claim_C5_unmasked_rolling {α : Type} (h : List Nat → α) (bs : List Nat) :
    (blockChecksums h bs).1
      = (fileBlocks bs).map fun blk => Int.lor (rollB blk * 65536) (rollA blk) := rfl

/-- Counterexample to claim C5 as stated: on the single-block file of 23 bytes of
value 255, the sums are `a = 5865` and `b = 70380 ≥ 2^16`, the stored value is
`(70380 << 16) | 5865`, which differs from the claimed 16-bit-masked value
`((70380 mod 2^16) << 16) | (5865 mod 2^16)`, and it does not fit in an unsigned
32-bit word (its bit 32 is set). -/
theorem claim_C5_counterexample :
    rollA (List.replicate 23 255) = 5865
    ∧ rollB (List.replicate 23 255) = 70380
    ∧ (blockChecksums (fun bs : List Nat => bs) (List.replicate 23 255)).1
        = [combineChecksum 70380 5865]
    ∧ (blockChecksums (fun bs : List Nat => bs) (List.replicate 23 255)).1
        ≠ [combineChecksum ((70380 : Int) % 65536) ((5865 : Int) % 65536)]
    ∧ ∀ z ∈ (blockChecksums (fun bs : List Nat => bs) (List.replicate 23 255)).1,
        ¬ z < (4294967296 : Int) := by
  have hA : rollA (List.replicate 23 255) = 5865 := by decide
  have hB : rollB (List.replicate 23 255) = 70380 := by decide
  have hblocks : fileBlocks (List.replicate 23 255) = [List.replicate 23 255] :=
    fileBlocks_small _ (by decide) (by decide)
  have htable : (blockChecksums (fun bs : List Nat => bs) (List.replicate 23 255)).1
      = [combineChecksum 70380 5865] := by
    simp only [blockChecksums]
    rw [hblocks]
    simp only [List.map_cons, List.map_nil]
    rw [hA, hB]
  have e1 : combineChecksum 70380 5865 = Int.ofNat (4612423680 ||| 5865) := rfl
  have e2 : combineChecksum ((70380 : Int) % 65536) ((5865 : Int) % 65536)
      = Int.ofNat (317456384 ||| 5865) := rfl
  refine ⟨hA, hB, htable, ?_, ?_⟩
  · rw [htable]
    intro heq
    have hv : combineChecksum 70380 5865
        = combineChecksum ((70380 : Int) % 65536) ((5865 : Int) % 65536) := by
      simpa using heq
    rw [e1, e2] at hv
    have hn := Int.ofNat.inj hv
    have hbit := congrArg (fun n => n.testBit 32) hn
    simp only [Nat.testBit_or] at hbit
    simp only [Nat.testBit_to_div_mod] at hbit
    norm_num at hbit
  · rw [htable]
    intro z hz
    simp only [List.mem_singleton] at hz
    subst hz
    rw [e1]
    intro hlt
    have hlt' : (4612423680 ||| 5865) < 4294967296 := by
      have hlt2 : ((4612423680 ||| 5865 : Nat) : Int) < 4294967296 := hlt
      exact_mod_cast hlt2
    have hf := Nat.testBit_lt_two_pow (x := 4612423680 ||| 5865) (i := 32)
      (by norm_num at hlt' ⊢; omega)
    simp only [Nat.testBit_or] at hf
    simp only [Nat.testBit_to_div_mod] at hf
    norm_num at hf

/-- Little-endian unsigned value of a byte list: first byte least significant. -/
def bytesToNatLE : List Nat → Nat
  | [] => 0
  | b :: bs => b + 256 * bytesToNatLE bs

/-- `struct.unpack("<q", bytes)` (receiver line 146): decode 8 bytes as a
little-endian signed 64-bit integer in two-sided complement. -/
def decodeInt64LE (bs : List Nat) : Int :=
  if bytesToNatLE bs < 2 ^ 63 then (bytesToNatLE bs : Int)
  else (bytesToNatLE bs : Int) - 2 ^ 64

/-- The patch-applying loop of `POST /create_or_append_patch` (receiver lines
144-153), computing the bytes this chunk appends to the side file.  A decoded
value `v ≤ 0` seeks the old file to `|v| * ROLLING_WINDOW_SIZE` and appends up
to one window read from there; a value `v > 0` appends the next `v` bytes of
the chunk (Python slicing silently truncates a short final slice, exactly like
`List.take`).  A chunk with between 1 and 7 remaining bytes makes
`struct.unpack` raise; this protocol error fails the request and abandons the
side file, modelled as `none`. -/
def applyPatchChunk (old : List Nat) (chunk : List Nat) : Option (List Nat) :=
  if hc : chunk = [] then some []
  else if hlen : chunk.length < 8 then none
  else
    let v := decodeInt64LE (chunk.take 8)
    if v ≤ 0 then
      Option.map
        (fun l => (old.drop (v.natAbs * ROLLING_WINDOW_SIZE)).take ROLLING_WINDOW_SIZE ++ l)
        (applyPatchChunk old (chunk.drop 8))
    else
      Option.map (fun l => (chunk.drop 8).take v.toNat ++ l)
        (applyPatchChunk old ((chunk.drop 8).drop v.toNat))
termination_by chunk.length
decreasing_by
  · have := List.length_pos.mpr hc
    simp only [List.length_drop]
    omega
  · have := List.length_pos.mpr hc
    simp only [List.length_drop]
    omega

/-- The generator never emits an empty literal: both flush sites are guarded by
`if literal_data_buffer:`. -/
theorem generatePatchLoop_no_empty_literal {α : Type} [DecidableEq α] (h : List Nat → α)
    (rolls : List Int) (strongs : List α) :
    ∀ (window rest litbuf : List Nat) (a b : Int),
      PatchItem.literal [] ∉ generatePatchLoop h rolls strongs window rest litbuf a b := by
  intro window rest litbuf a b
  induction window, rest, litbuf, a, b using generatePatchLoop.induct h rolls strongs with
  | case1 x x1 x2 =>
    rw [generatePatchLoop_nil]
    simp
  | case2 x litbuf x1 x2 hl =>
    rw [generatePatchLoop_nil]
    simp [hl, Ne.symm hl]
  | case3 w0 ws rest litbuf a b k hfind ih =>
    rw [generatePatchLoop_matched rest litbuf hfind]
    by_cases hl : litbuf = []
    · simp [hl, ih]
    · simp [hl, ih, Ne.symm hl]
  | case4 w0 ws litbuf a b hfind ih =>
    rw [generatePatchLoop_noMatch_nil litbuf hfind]
    exact ih
  | case5 w0 ws litbuf a b hfind r rs ih =>
    rw [generatePatchLoop_noMatch_cons r rs litbuf hfind]
    exact ih

/-- Claim C9 (wire-format zero disambiguation): the patch generator never emits
a `Literal` item of length 0, and the patch applier decodes any 8-byte
little-endian value `v ≤ 0` — including exactly 0 — as a copy of block `|v|`,
appending up to one window of the old file from offset
`|v| * ROLLING_WINDOW_SIZE`, never treating 0 as an empty literal. -/
theorem claim_C9_zero_disambiguation :
    (∀ {α : Type} [DecidableEq α] (h : List Nat → α) (source : List Nat)
        (table : List Int × List α),
        PatchItem.literal [] ∉ generateFilePatch h source table)
    ∧ ∀ (old header rest : List Nat) (v : Int),
        header.length = 8 → decodeInt64LE header = v → v ≤ 0 →
        applyPatchChunk old (header ++ rest)
          = Option.map
              (fun l =>
                (old.drop (v.natAbs * ROLLING_WINDOW_SIZE)).take ROLLING_WINDOW_SIZE ++ l)
              (applyPatchChunk old rest) := by
  constructor
  · intro α inst h source table
    exact generatePatchLoop_no_empty_literal h table.1 table.2 _ _ _ _ _
  · intro old header rest v hlen hdec hv
    rw [applyPatchChunk]
    have hne : ¬ header ++ rest = [] := by
      intro hx
      have := congrArg List.length hx
      simp [hlen] at this
    have hlen8 : ¬ (header ++ rest).length < 8 := by
      simp [List.length_append, hlen]
    have htake : (header ++ rest).take 8 = header := by
      rw [← hlen]
      exact List.take_left header rest
    have hdrop : (header ++ rest).drop 8 = rest := by
      rw [← hlen]
      exact List.drop_left header rest
    simp only [hne, hlen8, dite_false, htake, hdrop, hdec, if_pos hv]

/-- Witness for claim C9: part one at a one-byte source with an empty table
(stream is one literal, no empty literal occurs), part two at the 8-byte zero
header, which is decoded as a copy of block 0. -/
theorem claim_C9_witness :
    PatchItem.literal [] ∉ generateFilePatch (fun bs : List Nat => bs) [5] ([], [])
    ∧ applyPatchChunk [9] (List.replicate 8 0 ++ [7, 7])
        = Option.map
            (fun l =>
              (([9] : List Nat).drop (Int.natAbs 0 * ROLLING_WINDOW_SIZE)).take
                  ROLLING_WINDOW_SIZE ++ l)
            (applyPatchChunk [9] [7, 7]) :=
  ⟨claim_C9_zero_disambiguation.1 (fun bs : List Nat => bs) [5] ([], []),
   claim_C9_zero_disambiguation.2 [9] (List.replicate 8 0) [7, 7] 0 (by decide) (by decide)
     (by decide)⟩

/-- One step of `os.path.normpath` component processing on an absolute path:
empty components (from duplicate separators) and `.` are dropped, `..` removes
the last accumulated component and at the filesystem root is dropped
(`normpath("/..") = "/"`). -/
def normStep (acc : List String) (c : String) : List String :=
  if c = "" ∨ c = "." then acc
  else if c = ".." then acc.dropLast
  else acc ++ [c]

/-- `os.path.normpath` on an absolute path given as its `/`-separated
components (the leading empty component of an absolute path string is dropped
like any other empty component). -/
def normComponents (comps : List String) : List String :=
  comps.foldl normStep []

/-- The normalized join `normpath(join(abspath(root), rel))` computed by the
receiver, at path-component level.  `rel` is the list of `/`-separated
components of the URL-decoded relative path, so `"../etc"` is `["..", "etc"]`,
an absolute `"/etc"` is `["", "etc"]` and the empty string is `[""]`.
`os.path.join` discards the left operand when the right one is absolute, which
at component level is: a leading empty component followed by at least one more
component. -/
def normalizedJoin (root rel : List String) : List String :=
  match rel with
  | "" :: _ :: _ => normComponents rel
  | _ => normComponents (normComponents root ++ rel)

/-- `check_path_inside_directory` (receiver lines 29-33).  `root` is the
absolute path of the configured sync directory, as components;
`os.path.abspath` is its normalization.  For absolute, normalized `d`,
`os.path.commonpath([p, d]) == d` holds exactly when the components of `d` are
a prefix of the components of `p`, so the assertion is the prefix test.  The
result is the normalized target path on success, `none` when the assertion
fails (the request errors before touching the filesystem). -/
def check_path_inside_directory (untrusted root : List String) : Option (List String) :=
  let normalized_path := normalizedJoin root untrusted
  if (normComponents root).isPrefixOf normalized_path then some normalized_path else none

/-- A filesystem entry: a directory, or a file with its byte content and an
optional protocol-assigned modification time.  `none` models whatever
timestamp the operating system assigned on write — a value the protocol never
chose, so in particular not a source mtime the protocol was asked to set. -/
inductive FSEntry where
  | dir
  | file (content : List Nat) (mtimeNs : Option Nat)
deriving DecidableEq

/-- The destination filesystem: a finite map from absolute component paths to
entries, as an association list in which the first binding wins.  The
configured root directory itself is implicit and always exists. -/
abbrev FS := List (List String × FSEntry)

def fsLookup (fs : FS) (p : List String) : Option FSEntry :=
  (fs.find? fun e => decide (e.1 = p)).map (fun e => e.2)

def fsErase (fs : FS) (p : List String) : FS :=
  fs.filter fun e => decide ¬ e.1 = p

def fsInsert (fs : FS) (p : List String) (entry : FSEntry) : FS :=
  (p, entry) :: fsErase fs p

/-- `shutil.rmtree`: remove the entry and everything below it. -/
def fsEraseTree (fs : FS) (p : List String) : FS :=
  fs.filter fun e => decide ¬ p.isPrefixOf e.1

inductive Resp where
  | success
  | error
deriving DecidableEq

/-- The POST endpoints of the receiver, after the HTTP layer (external per the
spec) has split `self.path` at its prefix and URL-decoded the relative path.
`other` covers every path matching none of the `elif` prefixes, answered by the
final `else` branch with a 404 error response — in particular the
`/finish_create_file/...` requests that the sender issues.  The patch endpoints
carry the sender-chosen side-file suffix, which the receiver takes verbatim
from the URL.  `POST /ios_select_directory` is not modelled: outside the Pyto
iOS app it only returns an error response and touches no file. -/
inductive PostEndpoint where
  | create_directory
  | create_or_append_file
  | create_or_append_patch (suffix : String)
  | finish_patch (suffix : String)
  | update_file_mtime
  | delete_file_or_directory
  | other (name : String)
deriving DecidableEq

/-- The side-file path `normalized_path + patched_file_suffix` (receiver lines
139, 143, 160): Python string concatenation appends the suffix to the last
path component; when the relative path was empty the target IS the root and the
concatenation names a sibling of the root directory. -/
def sidePath : List String → String → List String
  | [], suffix => [suffix]
  | p, suffix => p.dropLast ++ [p.getLastD "" ++ suffix]

/-- `makedirs_force` (receiver lines 47-62) in the cases the protocol reaches:
a directory already at the target is kept (`mkdir` raises, the handler sees the
directory and returns); a file at the target makes `mkdir` raise
`FileExistsError`, which is re-raised because the target is not a directory;
otherwise, when the parent exists as a directory (the driver creates parents
first), `mkdir` creates the target.  When the parent is missing or not a
directory the Python function enters its recursive branch and evaluates the
undefined name `curdir` (line 56), raising `NameError` and failing the request;
that branch, which no claim exercises and which can remove conflicting parent
files before raising, is modelled as a plain failure. -/
def makedirs_force (fs : FS) (root p : List String) : Option FS :=
  if p = root then some fs
  else match fsLookup fs p with
  | some .dir => some fs
  | some (.file _ _) => none
  | none =>
    if p.dropLast = root ∨ fsLookup fs p.dropLast = some .dir then
      some (fsInsert fs p .dir)
    else none

/-- `int(body, 10)` on the ASCII decimal bodies of the mtime endpoints.  Python
`int` also strips whitespace and accepts a sign; the driver only ever sends
plain digit strings and no claim depends on the difference. -/
def parseAsciiDecimal (body : List Nat) : Option Nat :=
  if body = [] then none
  else if body.all fun c => decide (48 ≤ c ∧ c ≤ 57) then
    some (body.foldl (fun acc c => acc * 10 + (c - 48)) 0)
  else none

/-- The receiver control surface `do_POST` (receiver lines 119-178) over the
filesystem model, returning the new filesystem and the response.  Every
path-taking branch calls `check_path_inside_directory` before doing anything
else; an uncaught Python exception aborts the request without a success
response, and both that and an explicit error response are `Resp.error`.  Files
written or appended get the operating-system timestamp (`none`); only
`finish_patch` and `update_file_mtime` store a protocol-chosen mtime. -/
def doPOST (root : List String) (fs : FS) (ep : PostEndpoint) (rel : List String)
    (body : List Nat) : FS × Resp :=
  match ep with
  | .create_directory =>
    match check_path_inside_directory rel root with
    | none => (fs, .error)
    | some p =>
      match makedirs_force fs root p with
      | none => (fs, .error)
      | some fs1 => (fs1, .success)
  | .create_or_append_file =>
    match check_path_inside_directory rel root with
    | none => (fs, .error)
    | some p =>
      -- a conflicting directory is removed first (`shutil.rmtree`)
      let fs1 := if fsLookup fs p = some .dir then fsEraseTree fs p else fs
      if p = root then (fs, .error)  -- `open` on the root directory raises
      else if p.dropLast = root ∨ fsLookup fs1 p.dropLast = some .dir then
        match fsLookup fs1 p with
        | some (.file c _) => (fsInsert fs1 p (.file (c ++ body) none), .success)
        | _ => (fsInsert fs1 p (.file body none), .success)
      else (fs, .error)  -- `open(path, "ab")` with a missing parent raises
  | .create_or_append_patch suffix =>
    match check_path_inside_directory rel root with
    | none => (fs, .error)
    | some p =>
      match fsLookup fs p with
      | some (.file oldc _) =>
        match applyPatchChunk oldc body with
        | none => (fs, .error)  -- malformed chunk: the request fails, side file abandoned
        | some written =>
          let side := sidePath p suffix
          match fsLookup fs side with
          | some (.file sc _) => (fsInsert fs side (.file (sc ++ written) none), .success)
          | some .dir => (fs, .error)  -- `open(side, "ab")` on a directory raises
          | none => (fsInsert fs side (.file written none), .success)
      | _ => (fs, .error)  -- `open(normalized_path, "rb")` raises: missing file or a directory
  | .finish_patch suffix =>
    match check_path_inside_directory rel root with
    | none => (fs, .error)
    | some p =>
      match parseAsciiDecimal body with
      | none => (fs, .error)
      | some m =>
        let side := sidePath p suffix
        match fsLookup fs side with
        | some (.file sc _) =>
          if fsLookup fs p = some .dir ∨ p = root then (fs, .error)  -- rename onto a directory raises
          else (fsInsert (fsErase fs side) p (.file sc (some m)), .success)
        | _ => (fs, .error)  -- missing side file: `os.rename` raises
  | .update_file_mtime =>
    match check_path_inside_directory rel root with
    | none => (fs, .error)
    | some p =>
      match parseAsciiDecimal body with
      | none => (fs, .error)
      | some m =>
        match fsLookup fs p with
        | some (.file c _) => (fsInsert fs p (.file c (some m)), .success)
        | some .dir => (fs, .success)  -- `os.utime` works on directories; no mtime tracked there
        | none => if p = root then (fs, .success) else (fs, .error)
  | .delete_file_or_directory =>
    match check_path_inside_directory rel root with
    | none => (fs, .error)
    | some p =>
      if p = root then (fsEraseTree fs p, .success)  -- `rmtree` on the root removes everything below
      else match fsLookup fs p with
      | some (.file _ _) => (fsErase fs p, .success)
      | some .dir => (fsEraseTree fs p, .success)
      | none => (fs, .error)  -- `os.remove` raises `FileNotFoundError`
  | .other _ => (fs, .error)

/-- The `GET /block_checksums/<rel>` endpoint (receiver lines 103-115): path
check first; an empty pair when nothing exists at the path; the block-checksum
table when a file exists; opening a directory raises and fails the request. -/
def doGETBlockChecksums {α : Type} (h : List Nat → α) (root : List String) (fs : FS)
    (rel : List String) : Resp × (List Int × List α) :=
  match check_path_inside_directory rel root with
  | none => (.error, ([], []))
  | some p =>
    if p = root then (.error, ([], []))
    else match fsLookup fs p with
    | none => (.success, ([], []))
    | some .dir => (.error, ([], []))
    | some (.file c _) => (.success, blockChecksums h c)

theorem check_path_eq_none {untrusted root : List String}
    (hesc : (normComponents root).isPrefixOf (normalizedJoin root untrusted) = false) :
    check_path_inside_directory untrusted root = none := by
  unfold check_path_inside_directory
  simp [hesc]

/-- Claim C2 (path safety): for every attacker-controlled relative path sent to
any path-taking endpoint, if the normalized join of the configured root and the
path is neither the root nor a descendant of the root — that is, the
components of the normalized root are not a prefix of the normalized join —
the request fails and the filesystem is unchanged.  Every POST endpoint of the
model takes the relative path, and the unknown-endpoint branch fails without
touching the filesystem as well; the block-checksum GET endpoint likewise
fails. -/
theorem claim_C2_path_safety {α : Type} (h : List Nat → α) (root rel : List String)
    (hesc : (normComponents root).isPrefixOf (normalizedJoin root rel) = false) :
    (∀ (ep : PostEndpoint) (fs : FS) (body : List Nat),
        doPOST root fs ep rel body = (fs, .error))
    ∧ ∀ fs : FS, (doGETBlockChecksums h root fs rel).1 = .error := by
  have hchk := check_path_eq_none hesc
  constructor
  · intro ep fs body
    cases ep <;> simp [doPOST, hchk]
  · intro fs
    simp [doGETBlockChecksums, hchk]

/-- Witness for claim C2: the classic `../etc/passwd` escape against the root
directory `/r`, aimed at the delete endpoint. -/
theorem claim_C2_witness :
    doPOST ["r"] [] .delete_file_or_directory ["..", "etc", "passwd"] [] = ([], .error)
    ∧ (doGETBlockChecksums (fun bs : List Nat => bs) ["r"] []
        ["..", "etc", "passwd"]).1 = .error :=
  ⟨(claim_C2_path_safety (fun bs : List Nat => bs) ["r"] ["..", "etc", "passwd"]
      (by decide)).1 .delete_file_or_directory [] [],
   (claim_C2_path_safety (fun bs : List Nat => bs) ["r"] ["..", "etc", "passwd"]
      (by decide)).2 []⟩

/-- The four action tags emitted by `recursive_diff` and dispatched by the
driver (sender lines 166-177); the `assert False` branch is unreachable since
the planner yields no other tag. -/
inductive SyncAction where
  | delete
  | create_directory
  | create_file
  | patch_file
deriving DecidableEq

/-- A leaf identifier: `[name, size, mtime_ns]` by default or `[name, sha256]`
under `--checksum`, compared by structural equality. -/
inductive Ident (α : Type) where
  | sizeMtime (name : String) (size : Nat) (mtimeNs : Nat)
  | checksum (name : String) (hash : α)
deriving DecidableEq

/-- The source tree as the sender walks it: a file with content and nanosecond
mtime, or a directory listing (unique names, scandir order). -/
inductive SrcTree where
  | file (content : List Nat) (mtimeNs : Nat)
  | dir (entries : List (String × SrcTree))

/-- The destination snapshot returned by the tree endpoints, as the sender sees
it after JSON parsing: a leaf identifier or a directory mapping. -/
inductive DestNode (α : Type) where
  | leaf (ident : Ident α)
  | dir (entries : List (String × DestNode α))

/-- The default identifier `[basename, size, mtime_ns]` (sender lines 161-164);
the size of a file is its byte length. -/
def sizeMtimeIdentifier {α : Type} (name : String) (content : List Nat)
    (mtimeNs : Nat) : Ident α :=
  .sizeMtime name content.length mtimeNs

/-- The `--checksum` identifier `[basename, sha256(file)]` (sender lines
156-159), with SHA-256 the abstract function `h`. -/
def checksumIdentifier {α : Type} (h : List Nat → α) (name : String)
    (content : List Nat) (_mtimeNs : Nat) : Ident α :=
  .checksum name (h content)

/-- `destination_tree.get(entry.name)`. -/
def destLookup {α : Type} (entries : List (String × DestNode α)) (name : String) :
    Option (DestNode α) :=
  (entries.find? fun e => decide (e.1 = name)).map (fun e => e.2)

mutual
/-- `recursive_diff` (sender lines 35-57) over the tree model, with relative
paths as component lists (`rel` accumulates the components; the Python
`os.path.relpath` values are the same paths as strings).  `name` is the entry
basename fed to the identifier function.  The leftover destination entries are
iterated from a Python set, whose order is unspecified; the embedding keeps
destination order, and no claim depends on the order within that group. -/
def recursiveDiff {α : Type} [DecidableEq α]
    (ident : String → List Nat → Nat → Ident α) (name : String) (rel : List String) :
    SrcTree → Option (DestNode α) → List (SyncAction × List String)
  | .dir entries, some (.dir dentries) =>
    -- directory at source, directory at destination: sync children, then
    -- delete the leftover destination entries
    recursiveDiffEntries ident rel entries (some dentries)
      ++ (dentries.filter fun d => entries.all fun e => !decide (e.1 = d.1)).map
          (fun d => (.delete, rel ++ [d.1]))
  | .dir entries, _ =>
    -- directory at source, file or nothing at destination
    (.create_directory, rel) :: recursiveDiffEntries ident rel entries none
  | .file _ _, none => [(.create_file, rel)]
  | .file _ _, some (.dir _) => [(.delete, rel), (.create_file, rel)]
  | .file content mtime, some (.leaf d) =>
    if ident name content mtime = d then [] else [(.patch_file, rel)]

/-- The `for entry in it` walk inside `recursive_diff`, in scandir order. -/
def recursiveDiffEntries {α : Type} [DecidableEq α]
    (ident : String → List Nat → Nat → Ident α) (rel : List String) :
    List (String × SrcTree) → Option (List (String × DestNode α)) →
      List (SyncAction × List String)
  | [], _ => []
  | (n, t) :: es, dentries =>
    recursiveDiff ident n (rel ++ [n]) t (dentries.bind fun ds => destLookup ds n)
      ++ recursiveDiffEntries ident rel es dentries
end

/-- The four bucket lists the driver builds (sender lines 166-177); each action
path is appended to the list of its tag, preserving plan order. -/
structure PlanBuckets where
  create_directory_paths : List (List String)
  create_file_paths : List (List String)
  patch_file_paths : List (List String)
  delete_paths : List (List String)
deriving DecidableEq

def bucketStep (bk : PlanBuckets) (ap : SyncAction × List String) : PlanBuckets :=
  match ap.1 with
  | .create_directory =>
    { bk with create_directory_paths := bk.create_directory_paths ++ [ap.2] }
  | .create_file => { bk with create_file_paths := bk.create_file_paths ++ [ap.2] }
  | .patch_file => { bk with patch_file_paths := bk.patch_file_paths ++ [ap.2] }
  | .delete => { bk with delete_paths := bk.delete_paths ++ [ap.2] }

def partitionPlan (plan : List (SyncAction × List String)) : PlanBuckets :=
  plan.foldl bucketStep ⟨[], [], [], []⟩

/-- The order in which the driver issues the plan entries (sender lines
179-219): all deletes, then directory creations, then file creations, then
patches, each group in plan order. -/
def executedPlan (plan : List (SyncAction × List String)) :
    List (SyncAction × List String) :=
  ((partitionPlan plan).delete_paths.map fun p => (SyncAction.delete, p))
    ++ ((partitionPlan plan).create_directory_paths.map fun p =>
        (SyncAction.create_directory, p))
    ++ ((partitionPlan plan).create_file_paths.map fun p => (SyncAction.create_file, p))
    ++ ((partitionPlan plan).patch_file_paths.map fun p => (SyncAction.patch_file, p))

theorem partitionPlan_foldl_eq (plan : List (SyncAction × List String)) :
    ∀ bk : PlanBuckets,
      (plan.foldl bucketStep bk).delete_paths
          = bk.delete_paths ++ (plan.filter fun e => decide (e.1 = SyncAction.delete)).map Prod.snd
      ∧ (plan.foldl bucketStep bk).create_directory_paths
          = bk.create_directory_paths
            ++ (plan.filter fun e => decide (e.1 = SyncAction.create_directory)).map Prod.snd
      ∧ (plan.foldl bucketStep bk).create_file_paths
          = bk.create_file_paths
            ++ (plan.filter fun e => decide (e.1 = SyncAction.create_file)).map Prod.snd
      ∧ (plan.foldl bucketStep bk).patch_file_paths
          = bk.patch_file_paths
            ++ (plan.filter fun e => decide (e.1 = SyncAction.patch_file)).map Prod.snd := by
  induction plan with
  | nil => intro bk; simp
  | cons e es ih =>
    intro bk
    obtain ⟨a, p⟩ := e
    cases a <;>
      simp [List.foldl_cons, bucketStep, List.filter_cons, ih]

theorem map_snd_filter_action (a : SyncAction) (plan : List (SyncAction × List String)) :
    ((plan.filter fun e => decide (e.1 = a)).map Prod.snd).map (fun p => (a, p))
      = plan.filter fun e => decide (e.1 = a) := by
  induction plan with
  | nil => simp
  | cons e es ih =>
    obtain ⟨b, p⟩ := e
    by_cases hb : b = a
    · subst hb
      simp [List.filter_cons, ih]
    · simp [List.filter_cons, hb, ih]

theorem executedPlan_eq_filters (plan : List (SyncAction × List String)) :
    executedPlan plan
      = (plan.filter fun e => decide (e.1 = SyncAction.delete))
        ++ (plan.filter fun e => decide (e.1 = SyncAction.create_directory))
        ++ (plan.filter fun e => decide (e.1 = SyncAction.create_file))
        ++ (plan.filter fun e => decide (e.1 = SyncAction.patch_file)) := by
  have hp := partitionPlan_foldl_eq plan ⟨[], [], [], []⟩
  unfold executedPlan partitionPlan
  rw [hp.1, hp.2.1, hp.2.2.1, hp.2.2.2]
  simp only [List.nil_append]
  rw [map_snd_filter_action, map_snd_filter_action, map_snd_filter_action,
    map_snd_filter_action]

theorem executedPlan_delete_mem (plan : List (SyncAction × List String)) :
    ∀ x ∈ plan.filter fun e => decide (e.1 = SyncAction.delete),
      x.1 = SyncAction.delete := by
  intro x hx
  have := List.of_mem_filter hx
  simpa using this

theorem executedPlan_tail_not_delete (plan : List (SyncAction × List String)) :
    ∀ x ∈ (plan.filter fun e => decide (e.1 = SyncAction.create_directory))
        ++ (plan.filter fun e => decide (e.1 = SyncAction.create_file))
        ++ (plan.filter fun e => decide (e.1 = SyncAction.patch_file)),
      x.1 ≠ SyncAction.delete := by
  intro x hx
  simp only [List.mem_append] at hx
  rcases hx with (hx | hx) | hx <;>
  · have := List.of_mem_filter hx
    simp only [decide_eq_true_eq] at this
    simp [this]

/-- Claim C7 (plan ordering): the executed plan is exactly all deletes, then all
directory creations, then all file creations, then all patches, each group in
the order the planner emitted; consequently every delete position precedes
every non-delete position, so in particular the last delete of a path precedes
any of that path's other actions. -/
theorem claim_C7_plan_ordering (plan : List (SyncAction × List String)) :
    (executedPlan plan
      = (plan.filter fun e => decide (e.1 = SyncAction.delete))
        ++ (plan.filter fun e => decide (e.1 = SyncAction.create_directory))
        ++ (plan.filter fun e => decide (e.1 = SyncAction.create_file))
        ++ (plan.filter fun e => decide (e.1 = SyncAction.patch_file)))
    ∧ ∀ (i j : Nat) (hi : i < (executedPlan plan).length)
        (hj : j < (executedPlan plan).length),
        ((executedPlan plan).get ⟨i, hi⟩).1 = SyncAction.delete →
        ((executedPlan plan).get ⟨j, hj⟩).1 ≠ SyncAction.delete → i < j := by
  refine ⟨executedPlan_eq_filters plan, ?_⟩
  intro i j hi hj hdel hnot
  set D := plan.filter fun e => decide (e.1 = SyncAction.delete) with hD
  set R := (plan.filter fun e => decide (e.1 = SyncAction.create_directory))
      ++ (plan.filter fun e => decide (e.1 = SyncAction.create_file))
      ++ (plan.filter fun e => decide (e.1 = SyncAction.patch_file)) with hR
  have hsplit : executedPlan plan = D ++ R := by
    rw [executedPlan_eq_filters plan, hD, hR]
    simp [List.append_assoc]
  have hgi : (executedPlan plan)[i]? = some ((executedPlan plan).get ⟨i, hi⟩) := by
    rw [List.get_eq_getElem]
    exact List.getElem?_eq_getElem hi
  have hgj : (executedPlan plan)[j]? = some ((executedPlan plan).get ⟨j, hj⟩) := by
    rw [List.get_eq_getElem]
    exact List.getElem?_eq_getElem hj
  have hiD : i < D.length := by
    by_contra hge
    push_neg at hge
    have hsome : R[i - D.length]? = some ((executedPlan plan).get ⟨i, hi⟩) := by
      rw [← List.getElem?_append_right hge, ← hsplit]
      exact hgi
    have hmem : (executedPlan plan).get ⟨i, hi⟩ ∈ R := List.getElem?_mem hsome
    exact executedPlan_tail_not_delete plan _ (by rw [← hR]; exact hmem) hdel
  have hjD : ¬ j < D.length := by
    intro hlt
    have hsome : D[j]? = some ((executedPlan plan).get ⟨j, hj⟩) := by
      have hDj : (D ++ R)[j]? = D[j]? := List.getElem?_append_left hlt
      rw [← hDj, ← hsplit]
      exact hgj
    have hmem : (executedPlan plan).get ⟨j, hj⟩ ∈ D := List.getElem?_mem hsome
    exact hnot (executedPlan_delete_mem plan _ (by rw [← hD]; exact hmem))
  omega

/-- Witness for claim C7 at a small concrete plan. -/
theorem claim_C7_witness :
    executedPlan [(SyncAction.create_file, ["b"]), (SyncAction.delete, ["a"])]
        = [(SyncAction.delete, ["a"]), (SyncAction.create_file, ["b"])]
    ∧ (0 : Nat) < 1 :=
  ⟨by
    have := (claim_C7_plan_ordering
      [(SyncAction.create_file, ["b"]), (SyncAction.delete, ["a"])]).1
    rw [this]
    decide,
   (claim_C7_plan_ordering
      [(SyncAction.create_file, ["b"]), (SyncAction.delete, ["a"])]).2 0 1
     (by decide) (by decide) (by decide) (by decide)⟩

/-- One attempted plan entry with its outcome; a `false` outcome in a
try/except loop is reported (`traceback.print_exc`) and the loop continues. -/
inductive DriverEvent where
  | attempted (a : SyncAction) (p : List String) (ok : Bool)
deriving DecidableEq

/-- The delete loop (sender lines 179-185): the entire body of each iteration
(its single remote call) is wrapped in try/except, so every entry is attempted
whatever happened before; `fails a p` models an error response or a transport
or IO failure somewhere in that body. -/
def runCaughtLoop (fails : SyncAction → List String → Bool) (a : SyncAction)
    (paths : List (List String)) : List DriverEvent :=
  paths.map fun p => .attempted a p (!fails a p)

/-- The create-directory loop (sender lines 186-189): `api_call` is NOT wrapped
in try/except, so the first failing entry raises out of the loop; the Boolean
result records whether the run aborted there. -/
def runCreateDirLoop (fails : SyncAction → List String → Bool) :
    List (List String) → List DriverEvent × Bool
  | [] => ([], false)
  | p :: ps =>
    if fails .create_directory p then ([.attempted .create_directory p false], true)
    else
      let r := runCreateDirLoop fails ps
      (.attempted .create_directory p true :: r.1, r.2)

/-- The create-file loop (sender lines 190-205) and the patch-file loop
(206-219): each iteration first runs `os.stat` on the source path OUTSIDE the
try block (lines 192-193 and 208-209), so a sender-local IO error there —
modelled by `statFails a p` — raises out of the loop and aborts the run; the
rest of the body (opening and reading the source file and every remote call,
lines 195-205 and 212-219) is inside try/except, so a failure there — modelled
by `fails a p` — is reported and the loop continues with the next entry. -/
def runStatLoop (statFails fails : SyncAction → List String → Bool)
    (a : SyncAction) : List (List String) → List DriverEvent × Bool
  | [] => ([], false)
  | p :: ps =>
    if statFails a p then ([.attempted a p false], true)
    else
      let r := runStatLoop statFails fails a ps
      (.attempted a p (!fails a p) :: r.1, r.2)

/-- The sender driver (lines 166-219): partition the plan into the four
buckets, then run deletes, directory creations, file creations and patches in
that order.  An uncaught failure — a failing create-directory call, or a
failing `os.stat` in the create-file or patch-file loop — aborts the run:
nothing after it is attempted. -/
def runDriver (statFails fails : SyncAction → List String → Bool)
    (plan : List (SyncAction × List String)) : List DriverEvent × Bool :=
  let bk := partitionPlan plan
  let dels := runCaughtLoop fails .delete bk.delete_paths
  let cds := runCreateDirLoop fails bk.create_directory_paths
  let cfs := runStatLoop statFails fails .create_file bk.create_file_paths
  let pfs := runStatLoop statFails fails .patch_file bk.patch_file_paths
  if cds.2 then (dels ++ cds.1, true)
  else if cfs.2 then (dels ++ cds.1 ++ cfs.1, true)
  else (dels ++ cds.1 ++ cfs.1 ++ pfs.1, pfs.2)

/-- Counterexample to claim C4 as stated: a plan of two directory creations in
which the first remote call fails (no sender-local stat ever fails).  The run
aborts with only the failing entry attempted; the second `CreateDirectory("b")`
entry is never executed, so a single failure does poison the remainder of the
plan. -/
theorem claim_C4_counterexample :
    runDriver (fun _ _ => false)
        (fun a p => decide (a = SyncAction.create_directory ∧ p = ["a"]))
        [(SyncAction.create_directory, ["a"]), (SyncAction.create_directory, ["b"])]
      = ([DriverEvent.attempted SyncAction.create_directory ["a"] false], true) := by
  decide

theorem runCreateDirLoop_ok (fails : SyncAction → List String → Bool)
    (paths : List (List String))
    (hok : ∀ p ∈ paths, fails .create_directory p = false) :
    runCreateDirLoop fails paths
      = (paths.map fun p => .attempted .create_directory p true, false) := by
  induction paths with
  | nil => simp [runCreateDirLoop]
  | cons p ps ih =>
    have hp := hok p (List.mem_cons_self p ps)
    rw [runCreateDirLoop]
    simp only [hp, Bool.false_eq_true, if_false, List.map_cons]
    rw [ih fun q hq => hok q (List.mem_cons_of_mem p hq)]

theorem runStatLoop_ok (statFails fails : SyncAction → List String → Bool)
    (a : SyncAction) (paths : List (List String))
    (hok : ∀ p ∈ paths, statFails a p = false) :
    runStatLoop statFails fails a paths
      = (paths.map fun p => .attempted a p (!fails a p), false) := by
  induction paths with
  | nil => simp [runStatLoop]
  | cons p ps ih =>
    have hp := hok p (List.mem_cons_self p ps)
    rw [runStatLoop]
    simp only [hp, Bool.false_eq_true, if_false, List.map_cons]
    rw [ih fun q hq => hok q (List.mem_cons_of_mem p hq)]

theorem runStatLoop_abort (statFails fails : SyncAction → List String → Bool)
    (a : SyncAction) (paths : List (List String))
    (hex : ∃ p ∈ paths, statFails a p = true) :
    (runStatLoop statFails fails a paths).2 = true := by
  induction paths with
  | nil =>
    obtain ⟨p, hp, _⟩ := hex
    exact absurd hp (List.not_mem_nil p)
  | cons p ps ih =>
    rw [runStatLoop]
    by_cases hp : statFails a p = true
    · rw [if_pos hp]
    · rw [if_neg hp]
      obtain ⟨q, hq, hqf⟩ := hex
      rcases List.mem_cons.mp hq with hq1 | hq2
      · exact absurd (hq1 ▸ hqf) hp
      · exact ih ⟨q, hq2, hqf⟩

/-- Claim C4 (amended): a failure raised inside a loop body's try/except — an
error response or transport/IO error anywhere in a Delete entry, or anywhere
after the `os.stat` in a CreateFile or PatchFile entry — is reported and the
driver continues with the remaining entries; but two kinds of per-entry
failure abort the rest of the run: a failing CreateDirectory call (that loop
alone has no exception handler, sender lines 186-189) and a sender-local IO
error from the `os.stat` of the source file in the CreateFile and PatchFile
loops (lines 192-193 and 208-209, before the try block).  Concretely: (1)
every delete entry is always attempted with its own outcome; (2) when every
create-directory call and every stat succeeds, the run does not abort and
every entry of the executed plan is attempted with its own outcome, whatever
try-block failures occur; (3) when every create-directory call succeeds but
some create-file entry's stat fails, the run aborts. -/
theorem claim_C4_best_effort (statFails fails : SyncAction → List String → Bool)
    (plan : List (SyncAction × List String)) :
    (∀ p ∈ (partitionPlan plan).delete_paths,
        DriverEvent.attempted .delete p (!fails .delete p)
          ∈ (runDriver statFails fails plan).1)
    ∧ ((∀ p ∈ (partitionPlan plan).create_directory_paths,
          fails .create_directory p = false) →
        (∀ p ∈ (partitionPlan plan).create_file_paths,
            statFails .create_file p = false) →
        (∀ p ∈ (partitionPlan plan).patch_file_paths,
            statFails .patch_file p = false) →
        (runDriver statFails fails plan).2 = false
        ∧ ∀ ap ∈ executedPlan plan,
            DriverEvent.attempted ap.1 ap.2 (!fails ap.1 ap.2)
              ∈ (runDriver statFails fails plan).1)
    ∧ ((∀ p ∈ (partitionPlan plan).create_directory_paths,
          fails .create_directory p = false) →
        (∃ p ∈ (partitionPlan plan).create_file_paths,
            statFails .create_file p = true) →
        (runDriver statFails fails plan).2 = true) := by
  refine ⟨?_, ?_, ?_⟩
  · intro p hp
    unfold runDriver
    dsimp only
    by_cases hab : (runCreateDirLoop fails (partitionPlan plan).create_directory_paths).2
    · rw [if_pos hab]
      simp only [runCaughtLoop, List.mem_append]
      exact Or.inl (List.mem_map_of_mem _ hp)
    · rw [if_neg hab]
      by_cases hcf : (runStatLoop statFails fails SyncAction.create_file
          (partitionPlan plan).create_file_paths).2
      · rw [if_pos hcf]
        simp only [runCaughtLoop, List.mem_append]
        exact Or.inl (Or.inl (List.mem_map_of_mem _ hp))
      · rw [if_neg hcf]
        simp only [runCaughtLoop, List.mem_append]
        exact Or.inl (Or.inl (Or.inl (List.mem_map_of_mem _ hp)))
  · intro hok hscf hspf
    have hcd := runCreateDirLoop_ok fails _ hok
    have hcf := runStatLoop_ok statFails fails .create_file _ hscf
    have hpf := runStatLoop_ok statFails fails .patch_file _ hspf
    have hrun : runDriver statFails fails plan
        = (runCaughtLoop fails .delete (partitionPlan plan).delete_paths
            ++ ((partitionPlan plan).create_directory_paths.map fun p =>
                DriverEvent.attempted .create_directory p true)
            ++ ((partitionPlan plan).create_file_paths.map fun p =>
                DriverEvent.attempted .create_file p (!fails .create_file p))
            ++ ((partitionPlan plan).patch_file_paths.map fun p =>
                DriverEvent.attempted .patch_file p (!fails .patch_file p)),
           false) := by
      unfold runDriver
      dsimp only
      rw [hcd, hcf, hpf]
      simp
    constructor
    · rw [hrun]
    · intro ap hap
      rw [hrun]
      simp only [runCaughtLoop, List.mem_append]
      unfold executedPlan at hap
      simp only [List.mem_append] at hap
      rcases hap with ((hd | hc) | hf) | hpff
      · obtain ⟨p, hp, hpe⟩ := List.mem_map.mp hd
        rw [← hpe]
        exact Or.inl (Or.inl (Or.inl (List.mem_map_of_mem _ hp)))
      · obtain ⟨p, hp, hpe⟩ := List.mem_map.mp hc
        rw [← hpe]
        refine Or.inl (Or.inl (Or.inr ?_))
        have hb : (!fails SyncAction.create_directory p) = true := by
          rw [hok p hp]
          rfl
        rw [hb]
        exact List.mem_map_of_mem _ hp
      · obtain ⟨p, hp, hpe⟩ := List.mem_map.mp hf
        rw [← hpe]
        exact Or.inl (Or.inr (List.mem_map_of_mem _ hp))
      · obtain ⟨p, hp, hpe⟩ := List.mem_map.mp hpff
        rw [← hpe]
        exact Or.inr (List.mem_map_of_mem _ hp)
  · intro hok hex
    have hcd := runCreateDirLoop_ok fails _ hok
    have habort := runStatLoop_abort statFails fails SyncAction.create_file
        (partitionPlan plan).create_file_paths hex
    unfold runDriver
    dsimp only
    rw [hcd]
    simp [habort]

/-- Witness for the amended claim C4: a failure-free concrete run attempts
every entry and does not abort, and a concrete run whose only create-file
entry has a failing stat aborts. -/
theorem claim_C4_witness :
    DriverEvent.attempted .delete ["x"] true
        ∈ (runDriver (fun _ _ => false) (fun _ _ => false)
            [(SyncAction.delete, ["x"]), (SyncAction.create_directory, ["d"])]).1
    ∧ (runDriver (fun _ _ => false) (fun _ _ => false)
        [(SyncAction.delete, ["x"]), (SyncAction.create_directory, ["d"])]).2 = false
    ∧ (runDriver (fun a p => decide (a = SyncAction.create_file ∧ p = ["y"]))
        (fun _ _ => false) [(SyncAction.create_file, ["y"])]).2 = true :=
  ⟨(claim_C4_best_effort (fun _ _ => false) (fun _ _ => false)
      [(SyncAction.delete, ["x"]), (SyncAction.create_directory, ["d"])]).1 ["x"]
      (by decide),
   ((claim_C4_best_effort (fun _ _ => false) (fun _ _ => false)
      [(SyncAction.delete, ["x"]), (SyncAction.create_directory, ["d"])]).2.1
      (by decide) (by decide) (by decide)).1,
   (claim_C4_best_effort (fun a p => decide (a = SyncAction.create_file ∧ p = ["y"]))
      (fun _ _ => false) [(SyncAction.create_file, ["y"])]).2.2
      (by decide) ⟨["y"], by decide, by decide⟩⟩

/-- The chunked upload loop of the create-file driver (sender lines 197-202):
read up to `MAX_CHUNK_SIZE` bytes at a time; an empty read breaks the loop
before any call, so an empty file produces no chunks and no upload call. -/
def senderFileChunks (bs : List Nat) : List (List Nat) :=
  if hbs : bs = [] then []
  else bs.take MAX_CHUNK_SIZE :: senderFileChunks (bs.drop MAX_CHUNK_SIZE)
termination_by bs.length
decreasing_by
  have := List.length_pos.mpr hbs
  simp only [List.length_drop]
  have hM : 0 < MAX_CHUNK_SIZE := by decide
  omega

/-- The execution of one `create_file` plan entry (sender lines 190-205):
upload the content via `POST /create_or_append_file` one chunk at a time, then
call `POST /finish_create_file/<rel>` with the ASCII source mtime — an endpoint
path the receiver does not recognize.  Returns the final filesystem and the
response to the finish call (whose error the driver catches before moving on). -/
def execCreateFile (root : List String) (fs : FS) (rel : List String)
    (content : List Nat) (mtimeBody : List Nat) : FS × Resp :=
  let fs1 := (senderFileChunks content).foldl
    (fun s chunk => (doPOST root s .create_or_append_file rel chunk).1) fs
  doPOST root fs1 (.other "finish_create_file") rel mtimeBody

theorem senderFileChunks_nil : senderFileChunks [] = [] := by
  rw [senderFileChunks]
  simp

theorem senderFileChunks_small (bs : List Nat) (hne : bs ≠ [])
    (hlen : bs.length ≤ MAX_CHUNK_SIZE) : senderFileChunks bs = [bs] := by
  rw [senderFileChunks]
  simp [hne, List.take_of_length_le hlen, List.drop_eq_nil_of_le hlen,
    senderFileChunks_nil]

/-- Claim C3 (code bug): syncing the source `S = a.txt ↦ "hello"` (bytes
104 101 108 108 111, source mtime 777) into an empty destination plans exactly
`CreateFile("a.txt")`, and executing that entry writes the content — but the
destination mtime is never set to the source mtime: the closing call goes to
`/finish_create_file/a.txt`, an endpoint the receiver does not implement, so it
is answered by the 404 branch and the file keeps the operating-system
timestamp (`none`) instead of 777. -/
theorem claim_C3_create_file_mtime :
    recursiveDiff (fun name content mtimeNs => sizeMtimeIdentifier (α := Unit) name content mtimeNs)
        "" [] (.dir [("a.txt", .file [104, 101, 108, 108, 111] 777)]) (some (.dir []))
      = [(.create_file, ["a.txt"])]
    ∧ execCreateFile ["r"] [] ["a.txt"] [104, 101, 108, 108, 111] [55, 55, 55]
      = ([(["r", "a.txt"], .file [104, 101, 108, 108, 111] none)], .error)
    ∧ fsLookup (execCreateFile ["r"] [] ["a.txt"] [104, 101, 108, 108, 111] [55, 55, 55]).1
        ["r", "a.txt"]
      = some (.file [104, 101, 108, 108, 111] none) := by
  have hplan : recursiveDiff
      (fun name content mtimeNs => sizeMtimeIdentifier (α := Unit) name content mtimeNs)
      "" [] (.dir [("a.txt", .file [104, 101, 108, 108, 111] 777)]) (some (.dir []))
      = [(.create_file, ["a.txt"])] := by
    simp [recursiveDiff, recursiveDiffEntries, destLookup]
  have hchunks : senderFileChunks [104, 101, 108, 108, 111]
      = [[104, 101, 108, 108, 111]] :=
    senderFileChunks_small _ (by decide) (by decide)
  have hexec : execCreateFile ["r"] [] ["a.txt"] [104, 101, 108, 108, 111] [55, 55, 55]
      = ([(["r", "a.txt"], .file [104, 101, 108, 108, 111] none)], .error) := by
    unfold execCreateFile
    rw [hchunks]
    decide
  exact ⟨hplan, hexec, by rw [hexec]; decide⟩

/-- Claim C8 (code bug): for a zero-byte source file the patch generator emits
an empty instruction stream, but the destination never receives a zero-byte
file: the create-file loop reads no chunk and so issues no
`create_or_append_file` call, and the closing `finish_create_file` call hits no
receiver endpoint, so the filesystem is unchanged and the entry errors. -/
theorem claim_C8_empty_source :
    (∀ {α : Type} [DecidableEq α] (h : List Nat → α) (table : List Int × List α),
        generateFilePatch h [] table = [])
    ∧ senderFileChunks [] = []
    ∧ ∀ (root : List String) (fs : FS) (rel : List String) (body : List Nat),
        execCreateFile root fs rel [] body = (fs, .error) := by
  refine ⟨?_, senderFileChunks_nil, ?_⟩
  · intro α inst h table
    unfold generateFilePatch
    simp only [List.take_nil, List.drop_nil]
    rw [generatePatchLoop_nil]
    simp
  · intro root fs rel body
    unfold execCreateFile
    rw [senderFileChunks_nil]
    simp only [List.foldl_nil]
    rfl

/-! ### The concrete scenario of claim C6:
source `"X" * 2_000_000` against destination `"Y" + "X" * 1_999_999`
(`"X"` is byte 88, `"Y"` is byte 89). -/

def srcC6 : List Nat := List.replicate 2000000 88

def oldC6 : List Nat := 89 :: List.replicate 1999999 88

/-- Destination block 0: the first window of `oldC6`. -/
def blk0C6 : List Nat := 89 :: List.replicate 1048575 88

/-- Destination block 1: the final 951424 bytes of `oldC6`. -/
def blk1C6 : List Nat := List.replicate 951424 88

theorem c6_fileBlocks : fileBlocks oldC6 = [blk0C6, blk1C6] := by
  have hne : oldC6 ≠ [] := by
    unfold oldC6
    exact List.cons_ne_nil _ _
  rw [fileBlocks, dif_neg hne]
  have hB : ROLLING_WINDOW_SIZE = 1048575 + 1 := by decide
  have htake : oldC6.take ROLLING_WINDOW_SIZE = blk0C6 := by
    unfold oldC6 blk0C6
    rw [hB, List.take_succ_cons, List.take_replicate, min_eq_left (by norm_num)]
  have hdrop : oldC6.drop ROLLING_WINDOW_SIZE = blk1C6 := by
    unfold oldC6 blk1C6
    rw [hB, List.drop_succ_cons, List.drop_replicate]
  rw [htake, hdrop]
  have hne1 : blk1C6 ≠ [] := by
    intro hx
    have h2 := congrArg List.length hx
    simp only [blk1C6, List.length_replicate, List.length_nil] at h2
    exact absurd h2 (by decide)
  have hlen1 : blk1C6.length ≤ ROLLING_WINDOW_SIZE := by
    simp only [blk1C6, List.length_replicate]
    decide
  rw [fileBlocks_small blk1C6 hne1 hlen1]

/-- A two-entry table match search fails when both candidates are refuted. -/
theorem findMatch_two_none {α : Type} [DecidableEq α] {r0 r1 c : Int} {s0 s1 x : α}
    (h0 : ¬ (r0 = c ∧ s0 = x)) (h1 : ¬ (r1 = c ∧ s1 = x)) :
    findMatchedBlockIndex [r0, r1] [s0, s1] c x = none := by
  unfold findMatchedBlockIndex
  apply List.find?_eq_none.mpr
  intro i hi
  have hlen : ([r0, r1] : List Int).length = 2 := rfl
  rw [hlen] at hi
  simp only [List.mem_range] at hi
  interval_cases i
  · simp only [List.get?, Option.some.injEq, decide_eq_true_eq, not_and]
    intro hr hs
    exact h0 ⟨hr, hs⟩
  · simp only [List.get?, Option.some.injEq, decide_eq_true_eq, not_and]
    intro hr hs
    exact h1 ⟨hr, hs⟩

theorem rollB_replicate_88 (n : Nat) :
    rollB (List.replicate n 88) = 44 * (n : Int) * ((n : Int) + 1) := by
  have h2 := two_mul_rollB_replicate n 88
  have h3 : (2 : Int) * rollB (List.replicate n 88)
      = 2 * (44 * (n : Int) * ((n : Int) + 1)) := by
    rw [h2]
    push_cast
    ring
  exact mul_left_cancel₀ (by norm_num) h3

/-- The rolled `b` accumulator of the sender once its all-88 window has shrunk
from a full window down to `L` bytes (the `b` update keeps subtracting the full
window size while the effective length shrinks). -/
def c6RolledB (L : Nat) : Int :=
  44 * (ROLLING_WINDOW_SIZE : Int) * ((ROLLING_WINDOW_SIZE : Int) + 1)
    - 44 * ((ROLLING_WINDOW_SIZE : Int) - (L : Int))
      * (((ROLLING_WINDOW_SIZE : Int) - (L : Int)) + 1)

/-- Phase A of the C6 trace: while unread source bytes remain, the all-88 full
window never matches, each step pops an 88 into the literal buffer and appends
the next 88, and the accumulators return to their previous values, so the loop
only moves the remainder into the literal buffer. -/
theorem c6_phaseA {α : Type} [DecidableEq α] (h : List Nat → α)
    (rolls : List Int) (strongs : List α)
    (hnoB : ∀ c : Int,
      findMatchedBlockIndex rolls strongs c
        (h (88 :: List.replicate (ROLLING_WINDOW_SIZE - 1) 88)) = none) :
    ∀ (m : Nat) (litbuf : List Nat) (b : Int),
      generatePatchLoop h rolls strongs
          (88 :: List.replicate (ROLLING_WINDOW_SIZE - 1) 88)
          (List.replicate m 88) litbuf (88 * (ROLLING_WINDOW_SIZE : Int)) b
        = generatePatchLoop h rolls strongs
            (88 :: List.replicate (ROLLING_WINDOW_SIZE - 1) 88)
            [] (litbuf ++ List.replicate m 88) (88 * (ROLLING_WINDOW_SIZE : Int)) b := by
  intro m
  induction m with
  | zero =>
    intro litbuf b
    rw [List.replicate_zero, List.append_nil]
  | succ m ih =>
    intro litbuf b
    rw [List.replicate_succ]
    rw [generatePatchLoop_noMatch_cons 88 (List.replicate m 88) litbuf (hnoB _)]
    have hrot : List.replicate (ROLLING_WINDOW_SIZE - 1) 88 ++ [88]
        = 88 :: List.replicate (ROLLING_WINDOW_SIZE - 1) 88 := by
      rw [← List.replicate_succ', ← List.replicate_succ]
    rw [hrot]
    have hb2 : b - ((88 : Nat) : Int) * (ROLLING_WINDOW_SIZE : Int)
        + (88 * (ROLLING_WINDOW_SIZE : Int) - ((88 : Nat) : Int) + ((88 : Nat) : Int))
        = b := by
      push_cast
      ring
    have ha2 : 88 * (ROLLING_WINDOW_SIZE : Int) - ((88 : Nat) : Int) + ((88 : Nat) : Int)
        = 88 * (ROLLING_WINDOW_SIZE : Int) := by
      push_cast
      ring
    rw [hb2, ha2, ih (litbuf ++ [88]) b, List.append_assoc, List.singleton_append,
      ← List.replicate_succ]

/-- Phase B of the C6 trace: once the source is exhausted the window shrinks one
byte per step; with the rolled `b` given by `c6RolledB` no step matches (the
hypothesis covers every window length down to 1), so the whole window drains
into the literal buffer and is flushed as one literal. -/
theorem c6_phaseB {α : Type} [DecidableEq α] (h : List Nat → α)
    (rolls : List Int) (strongs : List α)
    (hno : ∀ L : Nat, 0 < L → L ≤ ROLLING_WINDOW_SIZE →
      findMatchedBlockIndex rolls strongs
        (combineChecksum (c6RolledB L) (88 * (L : Int)))
        (h (List.replicate L 88)) = none) :
    ∀ L : Nat, L ≤ ROLLING_WINDOW_SIZE →
      ∀ (litbuf : List Nat) (a b : Int),
        a = 88 * (L : Int) → b = c6RolledB L → (0 < L ∨ litbuf ≠ []) →
        generatePatchLoop h rolls strongs (List.replicate L 88) [] litbuf a b
          = [.literal (litbuf ++ List.replicate L 88)] := by
  intro L
  induction L with
  | zero =>
    intro _ litbuf a b ha hb hdisj
    have hlit : litbuf ≠ [] := by
      rcases hdisj with hp | hl
      · exact absurd hp (by omega)
      · exact hl
    rw [List.replicate_zero, generatePatchLoop_nil, if_neg hlit, List.append_nil]
  | succ L ih =>
    intro hLB litbuf a b ha hb hdisj
    rw [ha, hb]
    have hf := hno (L + 1) (by omega) hLB
    rw [List.replicate_succ] at hf
    rw [List.replicate_succ]
    rw [generatePatchLoop_noMatch_nil litbuf hf]
    have ha2 : 88 * (((L + 1 : Nat)) : Int) - ((88 : Nat) : Int) = 88 * (L : Int) := by
      push_cast
      ring
    have hb2 : c6RolledB (L + 1) - ((88 : Nat) : Int) * (ROLLING_WINDOW_SIZE : Int)
        + (88 * (((L + 1 : Nat)) : Int) - ((88 : Nat) : Int)) = c6RolledB L := by
      unfold c6RolledB
      push_cast
      ring
    rw [hb2, ha2]
    rw [ih (by omega) (litbuf ++ [88]) _ _ rfl rfl (Or.inr (by simp))]
    rw [List.append_assoc, List.singleton_append, ← List.replicate_succ]

/-- The full C6 patch stream: the generator on the all-88 source against the
block table of `oldC6` finds no match anywhere — block 0 starts with byte 89,
and the only window whose content equals block 1 (the shrunken tail window of
length 951424) carries a rolled checksum different from the stored one — so
the whole source is emitted as one literal. -/
theorem c6_stream {α : Type} [DecidableEq α] (h : List Nat → α)
    (hinj : Function.Injective h) :
    generateFilePatch h srcC6 (blockChecksums h oldC6) = [.literal srcC6] := by
  have htable1 : (blockChecksums h oldC6).1
      = [combineChecksum (rollB blk0C6) (rollA blk0C6),
         combineChecksum (rollB blk1C6) (rollA blk1C6)] := by
    simp only [blockChecksums, c6_fileBlocks, List.map_cons, List.map_nil]
  have htable2 : (blockChecksums h oldC6).2 = [h blk0C6, h blk1C6] := by
    simp only [blockChecksums, c6_fileBlocks, List.map_cons, List.map_nil]
  have htake : srcC6.take ROLLING_WINDOW_SIZE = List.replicate ROLLING_WINDOW_SIZE 88 := by
    unfold srcC6
    rw [List.take_replicate, min_eq_left (by decide)]
  have hdrop : srcC6.drop ROLLING_WINDOW_SIZE = List.replicate 951424 88 := by
    unfold srcC6
    rw [List.drop_replicate]
    rfl
  have ha0 : rollA (List.replicate ROLLING_WINDOW_SIZE 88)
      = 88 * (ROLLING_WINDOW_SIZE : Int) := by
    rw [rollA_replicate]
    push_cast
    ring
  have hb0 : rollB (List.replicate ROLLING_WINDOW_SIZE 88)
      = c6RolledB ROLLING_WINDOW_SIZE := by
    rw [rollB_replicate_88]
    unfold c6RolledB
    push_cast
    ring
  have hXB : List.replicate ROLLING_WINDOW_SIZE 88
      = 88 :: List.replicate (ROLLING_WINDOW_SIZE - 1) 88 := by
    conv_lhs => rw [show ROLLING_WINDOW_SIZE = (ROLLING_WINDOW_SIZE - 1) + 1 from by decide]
    rw [List.replicate_succ]
  have hnoB : ∀ c : Int,
      findMatchedBlockIndex
        [combineChecksum (rollB blk0C6) (rollA blk0C6),
         combineChecksum (rollB blk1C6) (rollA blk1C6)]
        [h blk0C6, h blk1C6] c
        (h (88 :: List.replicate (ROLLING_WINDOW_SIZE - 1) 88)) = none := by
    intro c
    apply findMatch_two_none
    · rintro ⟨-, hs⟩
      have heq := hinj hs
      unfold blk0C6 at heq
      injection heq with h1 h2
      exact absurd h1 (by decide)
    · rintro ⟨-, hs⟩
      have heq := hinj hs
      rw [← hXB] at heq
      have hlen := congrArg List.length heq
      simp only [blk1C6, List.length_replicate] at hlen
      exact absurd hlen (by decide)
  have hno : ∀ L : Nat, 0 < L → L ≤ ROLLING_WINDOW_SIZE →
      findMatchedBlockIndex
        [combineChecksum (rollB blk0C6) (rollA blk0C6),
         combineChecksum (rollB blk1C6) (rollA blk1C6)]
        [h blk0C6, h blk1C6]
        (combineChecksum (c6RolledB L) (88 * (L : Int)))
        (h (List.replicate L 88)) = none := by
    intro L hp hLB
    apply findMatch_two_none
    · rintro ⟨-, hs⟩
      have heq := hinj hs
      have h89 : (89 : Nat) ∈ List.replicate L 88 := by
        rw [← heq]
        unfold blk0C6
        exact List.mem_cons_self _ _
      have h88 := List.eq_of_mem_replicate h89
      exact absurd h88 (by decide)
    · by_cases hL : L = 951424
      · rintro ⟨hr, -⟩
        rw [hL] at hr
        have hb1 : rollB blk1C6 = 39829177484800 := by
          unfold blk1C6
          rw [rollB_replicate_88]
          norm_num
        have ha1 : rollA blk1C6 = 83725312 := by
          unfold blk1C6
          rw [rollA_replicate]
          norm_num
        have hc : c6RolledB 951424 = 47963258996224 := by
          unfold c6RolledB
          norm_num [ROLLING_WINDOW_SIZE]
        have ha3 : (88 : Int) * ((951424 : Nat) : Int) = 83725312 := by norm_num
        rw [hb1, ha1, hc, ha3] at hr
        have e1 : combineChecksum 39829177484800 83725312
            = Int.ofNat (39829177484800 * 65536 ||| 83725312) := rfl
        have e2 : combineChecksum 47963258996224 83725312
            = Int.ofNat (47963258996224 * 65536 ||| 83725312) := rfl
        rw [e1, e2] at hr
        have hn := Int.ofNat.inj hr
        have hbit := congrArg (fun n => n.testBit 59) hn
        simp only [Nat.testBit_or] at hbit
        simp only [Nat.testBit_to_div_mod] at hbit
        norm_num at hbit
      · rintro ⟨-, hs⟩
        have heq := hinj hs
        have hlen := congrArg List.length heq
        simp only [blk1C6, List.length_replicate] at hlen
        exact hL hlen.symm
  unfold generateFilePatch
  rw [htable1, htable2, htake, hdrop, ha0, hb0, hXB]
  rw [c6_phaseA h _ _ hnoB 951424 [] (c6RolledB ROLLING_WINDOW_SIZE)]
  rw [List.nil_append, ← hXB]
  rw [c6_phaseB h _ _ hno ROLLING_WINDOW_SIZE (le_refl _) (List.replicate 951424 88) _ _
    rfl rfl (Or.inl (by decide))]
  rw [← List.replicate_add]
  have hsum : (951424 + ROLLING_WINDOW_SIZE) = 2000000 := by decide
  rw [hsum]
  rfl

/-- The C6 plan: under checksum identifiers with an injective hash the two file
contents differ, so the planner emits exactly one `patch_file` action. -/
theorem c6_plan {α : Type} [DecidableEq α] (h : List Nat → α)
    (hinj : Function.Injective h) :
    recursiveDiff (checksumIdentifier h) "" []
        (SrcTree.dir [("a", .file srcC6 777)])
        (some (.dir [("a", .leaf (.checksum "a" (h oldC6)))]))
      = [(.patch_file, ["a"])] := by
  have hne : srcC6 ≠ oldC6 := by
    intro heq
    have h89 : (89 : Nat) ∈ srcC6 := by
      rw [heq]
      unfold oldC6
      exact List.mem_cons_self _ _
    unfold srcC6 at h89
    have h88 := List.eq_of_mem_replicate h89
    exact absurd h88 (by decide)
  have hid : checksumIdentifier h "a" srcC6 777 ≠ Ident.checksum "a" (h oldC6) := by
    unfold checksumIdentifier
    intro hx
    injection hx with h1 h2
    exact hne (hinj h2)
  simp [recursiveDiff, recursiveDiffEntries, destLookup, hid]

/-- Claim C6 (amended): with checksum identifiers and SHA-256 modelled as an
injective function, the plan for `S = a ↦ "X"*2_000_000` against
`D = a ↦ "Y" + "X"*1_999_999` is exactly `PatchFile("a")`, and the generated
patch instruction stream is a single `Literal` of the whole source — block 0 of
the destination starts with "Y" and the shrunken tail windows never carry the
stored rolling checksum of block 1, so no copy is ever emitted — and applying
that stream reconstructs the source content. -/
theorem claim_C6_scenario {α : Type} [DecidableEq α] (h : List Nat → α)
    (hinj : Function.Injective h) :
    recursiveDiff (checksumIdentifier h) "" []
        (SrcTree.dir [("a", .file srcC6 777)])
        (some (.dir [("a", .leaf (.checksum "a" (h oldC6)))]))
      = [(.patch_file, ["a"])]
    ∧ generateFilePatch h srcC6 (blockChecksums h oldC6) = [.literal srcC6]
    ∧ applyPatchItems oldC6 [.literal srcC6] = srcC6 :=
  ⟨c6_plan h hinj, c6_stream h hinj, by simp [applyPatchItems, applyPatchItem]⟩

/-- Witness for the amended claim C6 with the identity as the injective hash. -/
theorem claim_C6_witness :
    recursiveDiff (checksumIdentifier (fun bs : List Nat => bs)) "" []
        (SrcTree.dir [("a", .file srcC6 777)])
        (some (.dir [("a", .leaf (.checksum "a" oldC6))]))
      = [(.patch_file, ["a"])]
    ∧ generateFilePatch (fun bs : List Nat => bs) srcC6
        (blockChecksums (fun bs : List Nat => bs) oldC6) = [.literal srcC6]
    ∧ applyPatchItems oldC6 [.literal srcC6] = srcC6 :=
  claim_C6_scenario (fun bs : List Nat => bs) (fun _ _ hx => hx)

/-- Counterexample to claim C6 as stated: the generated stream is the single
whole-source literal, not `Literal("Y")` then `Copy(1)` then
`Literal("X"*(2_000_000 - 1_048_577))`. -/
theorem claim_C6_counterexample :
    generateFilePatch (fun bs : List Nat => bs) srcC6
        (blockChecksums (fun bs : List Nat => bs) oldC6)
      ≠ [.literal [89], .copy 1, .literal (List.replicate 951423 88)] := by
  rw [c6_stream (fun bs : List Nat => bs) (fun _ _ hx => hx)]
  intro heq
  have hlen := congrArg List.length heq
  simp only [List.length_cons, List.length_nil] at hlen
  exact absurd hlen (by decide)
